import Mathlib

/-!
Shallow embedding of the core of the robinson rendering engine: the style
cascade (robinson_style), the CSS2 block layout engine (robinson_layout)
and the display-list builder (robinson_paint), together with proofs about
them.

Machine floats (f32 px values) are modelled by exact rationals; all the
verified properties are arithmetic identities on those values.
-/

namespace Robinson

/-- Modelled from the spec: robinson_css Color (the css crate is not among
the verified sources); only equality of colors is observable here. -/
structure Color where
  val : Nat
  deriving DecidableEq

/-- Modelled from the spec: robinson_css Value — a keyword string, a numeric
length in px, or a color. -/
inductive Value : Type where
  | keyword : String → Value
  | length : ℚ → Value
  | color : Color → Value
  deriving DecidableEq

/-- Modelled from the spec: robinson_css Value::to_px — a px length yields
its number, any other value (keywords such as auto) contributes 0. -/
def Value.to_px : Value → ℚ
  | Value.length q => q
  | _ => 0

/-- Property map: the observable behaviour of the Rust HashMap here is key
lookup after a sequence of inserts, modelled by an association list. -/
abbrev PropertyMap : Type := List (String × Value)

/-- HashMap::get. -/
def pmGet (m : PropertyMap) (name : String) : Option Value :=
  (m.find? (fun p => p.1 == name)).map (fun p => p.2)

/-- HashMap::insert: overwrite any previous binding of the key. -/
def pmInsert (m : PropertyMap) (name : String) (v : Value) : PropertyMap :=
  m.filter (fun p => p.1 != name) ++ [(name, v)]

/-- Element data as consumed by robinson_style: tag name, optional id
attribute, and class list. -/
structure Element where
  name : String
  id : Option String
  classes : List String
  deriving DecidableEq

/-- A DOM node as consumed by robinson_style: element, text or comment. -/
inductive Node : Type where
  | element : Element → Node
  | text : String → Node
  | comment : String → Node
  deriving DecidableEq

/-- A simple selector: optional tag name, optional id, class names. -/
structure SimpleSelector where
  tag_name : Option String
  id : Option String
  cls : List String
  deriving DecidableEq

/-- Selectors (only simple selectors exist). -/
inductive Selector : Type where
  | simple : SimpleSelector → Selector
  deriving DecidableEq

/-- Modelled from the spec: Specificity is a 3-tuple (id-count, class-count,
tag-count) compared lexicographically, higher wins. -/
abbrev Specificity : Type := Nat × Nat × Nat

/-- Modelled from the spec: a selector's specificity counts its id, class
and tag components. -/
def Selector.specificity : Selector → Specificity
  | Selector.simple s =>
    ((match s.id with | some _ => 1 | none => 0),
     s.cls.length,
     (match s.tag_name with | some _ => 1 | none => 0))

/-- A style rule: selectors plus declarations, in source order. -/
structure NormalRule where
  selectors : List Selector
  declarations : List (String × Value)

/-- A stylesheet rule; only normal rules take part in the cascade. -/
inductive CssRule : Type where
  | normal : NormalRule → CssRule
  | other : CssRule

/-- A stylesheet: an ordered sequence of rules. -/
structure StyleSheet where
  rules : List CssRule

/-- Selector matching against a single element (matches_simple_selector). -/
def matches_simple_selector (elem : Element) (selector : SimpleSelector) : Bool :=
  if selector.tag_name.any (fun name => elem.name != name) then false
  else if selector.id.any (fun i => elem.id != some i) then false
  else if selector.cls.any (fun c => !(elem.classes.contains c)) then false
  else true

/-- Dispatch on the selector kind (matches in robinson_style). -/
def selector_matches (elem : Element) (selector : Selector) : Bool :=
  match selector with
  | Selector.simple s => matches_simple_selector elem s

/-- If the rule matches the element, the specificity of its first matching
selector; otherwise none (match_rule). -/
def match_rule (elem : Element) (rule : NormalRule) : Option Specificity :=
  (rule.selectors.find? (fun s => selector_matches elem s)).map Selector.specificity

/-- A matched rule paired with the specificity it matched at. -/
abbrev MatchedRule : Type := Specificity × NormalRule

/-- All normal rules of one stylesheet that match the element
(matching_rules). -/
def matching_rules (elem : Element) (stylesheet : StyleSheet) : List MatchedRule :=
  (stylesheet.rules.filterMap (fun r => match r with
    | CssRule.normal n => some n
    | CssRule.other => none)).filterMap
      (fun rule => (match_rule elem rule).map (fun sp => (sp, rule)))

/-- Modelled from the spec: lexicographic comparison of specificities (the
Ord instance lives in the missing css crate). -/
def speccmp (a b : Specificity) : Ordering :=
  match a, b with
  | (a1, a2, a3), (b1, b2, b3) =>
    (compare a1 b1).then ((compare a2 b2).then (compare a3 b3))

/-- Stable insertion of one element: it goes after every element it does not
compare strictly below. -/
def insert_by (cmp : α → α → Ordering) (x : α) : List α → List α
  | [] => [x]
  | y :: ys =>
    match cmp x y with
    | Ordering.lt => x :: y :: ys
    | _ => y :: insert_by cmp x ys

/-- Stable sort by a comparator: the unique stable result of Rust sort_by. -/
def sort_by (cmp : α → α → Ordering) (l : List α) : List α :=
  l.foldl (fun acc x => insert_by cmp x acc) []

/-- The cascade (specified_values): collect the matching rules of all
stylesheets in order, sort them with the comparator fun a b => cmp b a
(descending specificity, stable), then apply every declaration in that
order, overwriting previous bindings. -/
def specified_values (elem : Element) (stylesheets : List StyleSheet) : PropertyMap :=
  let rules := stylesheets.foldl (fun acc s => acc ++ matching_rules elem s) []
  let sorted := sort_by (fun x y => speccmp y.1 x.1) rules
  sorted.foldl (fun values r =>
    r.2.declarations.foldl (fun vs d => pmInsert vs d.1 d.2) values) []

/-- The computed display values (Display in robinson_style). -/
inductive Display : Type where
  | block
  | inline
  | inlineBlock
  | table
  | tableRowGroup
  | tableRow
  | tableCell
  | listItem
  | none
  deriving DecidableEq

/-- A style node: the originating DOM node, its specified property map and
its child style nodes (StyleNode in robinson_style). -/
inductive SNode : Type where
  | mk : Node → PropertyMap → List SNode → SNode

/-- The originating DOM node. -/
def SNode.node : SNode → Node
  | SNode.mk n _ _ => n

/-- The specified property map. -/
def SNode.specified : SNode → PropertyMap
  | SNode.mk _ m _ => m

/-- The child style nodes. -/
def SNode.kids : SNode → List SNode
  | SNode.mk _ _ cs => cs

/-- StyleNode::get_value. -/
def SNode.get_value (sn : SNode) (name : String) : Option Value :=
  pmGet sn.specified name

/-- StyleNode lookup: the primary property if set, else the fallback
property if set, else the given default. -/
def SNode.lookup_with_fallback (sn : SNode) (name fallback : String) (default : Value) : Value :=
  ((sn.get_value name).or (sn.get_value fallback)).getD default

/-- Modelled from the spec: StyleNode::get_color (called by the layout crate
but absent from the style sources) — the property's value when it is a
color, otherwise none. -/
def SNode.get_color (sn : SNode) (name : String) : Option Color :=
  match sn.get_value name with
  | some (Value.color c) => some c
  | _ => none

/-- StyleNode::display: text nodes are inline; otherwise the display
property's keyword is interpreted, any non-keyword value and any
unrecognized keyword giving inline. -/
def SNode.display (sn : SNode) : Display :=
  match sn.node with
  | Node.text _ => Display.inline
  | _ =>
    match sn.get_value "display" with
    | some (Value.keyword s) =>
      match s with
      | "block" => Display.block
      | "none" => Display.none
      | "inline-block" => Display.inlineBlock
      | "table" => Display.table
      | "table-row-group" => Display.tableRowGroup
      | "table-row" => Display.tableRow
      | "table-cell" => Display.tableCell
      | "list-item" => Display.listItem
      | _ => Display.inline
    | _ => Display.inline

/-- A rectangle in px (Rect). -/
structure Rect where
  x : ℚ
  y : ℚ
  width : ℚ
  height : ℚ
  deriving DecidableEq

/-- Edge sizes (EdgeSizes). -/
structure EdgeSizes where
  left : ℚ
  right : ℚ
  top : ℚ
  bottom : ℚ
  deriving DecidableEq

/-- Box dimensions: content rectangle plus padding, border and margin
edges (Dimensions). -/
structure Dimensions where
  content : Rect
  padding : EdgeSizes
  border : EdgeSizes
  margin : EdgeSizes
  deriving DecidableEq

/-- Default::default() for EdgeSizes. -/
def defaultEdges : EdgeSizes := { left := 0, right := 0, top := 0, bottom := 0 }

/-- Default::default() for Dimensions: all fields zero. -/
def defaultDims : Dimensions :=
  { content := { x := 0, y := 0, width := 0, height := 0 },
    padding := defaultEdges, border := defaultEdges, margin := defaultEdges }

/-- Rect::expanded_by. -/
def Rect.expanded_by (self : Rect) (edge : EdgeSizes) : Rect :=
  { x := self.x - edge.left,
    y := self.y - edge.top,
    width := self.width + edge.left + edge.right,
    height := self.height + edge.top + edge.bottom }

/-- Content area plus padding. -/
def Dimensions.padding_box (self : Dimensions) : Rect :=
  self.content.expanded_by self.padding

/-- Content area plus padding and borders. -/
def Dimensions.border_box (self : Dimensions) : Rect :=
  self.padding_box.expanded_by self.border

/-- Content area plus padding, borders and margin. -/
def Dimensions.margin_box (self : Dimensions) : Rect :=
  self.border_box.expanded_by self.margin

/-- Box kinds, each holding the style node that generated the box. -/
inductive BoxType : Type where
  | blockNode : SNode → BoxType
  | inlineNode : SNode → BoxType
  | anonymousBlock : SNode → BoxType

/-- A node in the layout tree (LayoutBox). -/
inductive LayoutBox : Type where
  | mk : Dimensions → BoxType → List LayoutBox → LayoutBox

/-- The box's dimensions. -/
def LayoutBox.dimensions : LayoutBox → Dimensions
  | LayoutBox.mk d _ _ => d

/-- The box's kind. -/
def LayoutBox.box_type : LayoutBox → BoxType
  | LayoutBox.mk _ bt _ => bt

/-- The box's children. -/
def LayoutBox.kids : LayoutBox → List LayoutBox
  | LayoutBox.mk _ _ cs => cs

/-- Whether a box is an AnonymousBlock. -/
def LayoutBox.isAnonymous : LayoutBox → Bool
  | LayoutBox.mk _ (BoxType.anonymousBlock _) _ => true
  | _ => false

/-- Push a box into the children of the last element of the list (used when
that last element is the anonymous block collecting inline boxes). -/
def pushIntoLast (acc : List LayoutBox) (b : LayoutBox) : List LayoutBox :=
  match acc.getLast? with
  | some (LayoutBox.mk d bt cs) => acc.dropLast ++ [LayoutBox.mk d bt (cs ++ [b])]
  | Option.none => acc

/-- get_inline_container followed by pushing a freshly built inline box: an
Inline or AnonymousBlock parent receives it directly; a Block parent
appends it to its trailing AnonymousBlock child, a new AnonymousBlock
(styled by the block's own style node) being created first when the last
child is not already anonymous. -/
def push_inline (selfType : BoxType) (acc : List LayoutBox) (b : LayoutBox) : List LayoutBox :=
  match selfType with
  | BoxType.inlineNode _ => acc ++ [b]
  | BoxType.anonymousBlock _ => acc ++ [b]
  | BoxType.blockNode node =>
    if (acc.getLast?.map LayoutBox.isAnonymous).getD false then
      pushIntoLast acc b
    else
      acc ++ [LayoutBox.mk defaultDims (BoxType.anonymousBlock node) [b]]

/-- The box type build_layout_tree gives the box of a style node: Block for
display block, Inline otherwise (the caller never passes other displays;
a none root is a panic, modelled in build_layout_tree by Option). -/
def rootBoxType (sn : SNode) : BoxType :=
  match sn.display with
  | Display.block => BoxType.blockNode sn
  | _ => BoxType.inlineNode sn

mutual

/-- Build the layout box of one style node whose display is block or
inline, recursively building and placing its children. -/
def buildBox : SNode → LayoutBox
  | SNode.mk n m cs =>
    LayoutBox.mk defaultDims (rootBoxType (SNode.mk n m cs))
      (buildKids (rootBoxType (SNode.mk n m cs)) cs [])

/-- Fold over the style children: block children are appended directly,
inline children go through the inline container, all other displays
(none, inline-block, table, ...) are skipped by the catch-all arm. -/
def buildKids (selfType : BoxType) : List SNode → List LayoutBox → List LayoutBox
  | [], acc => acc
  | c :: cs, acc =>
    buildKids selfType cs
      (match SNode.display c with
       | Display.block => acc ++ [buildBox c]
       | Display.inline => push_inline selfType acc (buildBox c)
       | _ => acc)

end

/-- build_layout_tree: a root whose display is neither block nor inline is
a panic in Rust, modelled as none. -/
def build_layout_tree (sn : SNode) : Option LayoutBox :=
  match sn.display with
  | Display.block => some (buildBox sn)
  | Display.inline => some (buildBox sn)
  | _ => Option.none

/-- The auto keyword. -/
def autoV : Value := Value.keyword "auto"

/-- The zero length. -/
def zeroLen : Value := Value.length 0

/-- The match of calculate_block_width on which of width, margin-left and
margin-right are auto, yielding the used (width, margin-left,
margin-right): each arm increases the total by exactly underflow. -/
def resolve_width (width margin_left margin_right : Value) (underflow : ℚ) :
    Value × Value × Value :=
  if width = autoV then
    let ml := if margin_left = autoV then zeroLen else margin_left
    let mr := if margin_right = autoV then zeroLen else margin_right
    if underflow ≥ 0 then (Value.length underflow, ml, mr)
    else (Value.length 0, ml, Value.length (mr.to_px + underflow))
  else if margin_left = autoV ∧ margin_right = autoV then
    (width, Value.length (underflow / 2), Value.length (underflow / 2))
  else if margin_right = autoV then
    (width, margin_left, Value.length underflow)
  else if margin_left = autoV then
    (width, Value.length underflow, margin_right)
  else
    (width, margin_left, Value.length (margin_right.to_px + underflow))

/-- calculate_block_width: resolve the seven horizontal quantities of a
block box so that their sum equals the containing block's content width,
and store them in the dimensions. -/
def calculate_block_width (style : SNode) (containing : Dimensions) (d : Dimensions) : Dimensions :=
  let width0 := (style.get_value "width").getD autoV
  let margin_left0 := style.lookup_with_fallback "margin-left" "margin" zeroLen
  let margin_right0 := style.lookup_with_fallback "margin-right" "margin" zeroLen
  let border_left := style.lookup_with_fallback "border-left-width" "border-width" zeroLen
  let border_right := style.lookup_with_fallback "border-right-width" "border-width" zeroLen
  let padding_left := style.lookup_with_fallback "padding-left" "padding" zeroLen
  let padding_right := style.lookup_with_fallback "padding-right" "padding" zeroLen
  let total := margin_left0.to_px + margin_right0.to_px + border_left.to_px +
    border_right.to_px + padding_left.to_px + padding_right.to_px + width0.to_px
  let margin_left1 :=
    if width0 ≠ autoV ∧ total > containing.content.width ∧ margin_left0 = autoV
    then zeroLen else margin_left0
  let margin_right1 :=
    if width0 ≠ autoV ∧ total > containing.content.width ∧ margin_right0 = autoV
    then zeroLen else margin_right0
  let underflow := containing.content.width - total
  let resolved := resolve_width width0 margin_left1 margin_right1 underflow
  { d with
    content := { d.content with width := resolved.1.to_px }
    padding := { d.padding with left := padding_left.to_px, right := padding_right.to_px }
    border := { d.border with left := border_left.to_px, right := border_right.to_px }
    margin := { d.margin with left := resolved.2.1.to_px, right := resolved.2.2.to_px } }

/-- calculate_block_position: resolve the vertical edges and place the
content rectangle inside the containing block, below the containing
block's accumulated content height. -/
def calculate_block_position (style : SNode) (containing : Dimensions) (d0 : Dimensions) : Dimensions :=
  let d1 := { d0 with
    margin := { d0.margin with
      top := (style.lookup_with_fallback "margin-top" "margin" zeroLen).to_px,
      bottom := (style.lookup_with_fallback "margin-bottom" "margin" zeroLen).to_px },
    border := { d0.border with
      top := (style.lookup_with_fallback "border-top-width" "border-width" zeroLen).to_px,
      bottom := (style.lookup_with_fallback "border-bottom-width" "border-width" zeroLen).to_px },
    padding := { d0.padding with
      top := (style.lookup_with_fallback "padding-top" "padding" zeroLen).to_px,
      bottom := (style.lookup_with_fallback "padding-bottom" "padding" zeroLen).to_px } }
  { d1 with content := { d1.content with
      x := containing.content.x + d1.margin.left + d1.border.left + d1.padding.left,
      y := containing.content.height + containing.content.y +
           d1.margin.top + d1.border.top + d1.padding.top } }

/-- calculate_block_height: an explicit pixel height overrides the content
height accumulated from the children. -/
def calculate_block_height (style : SNode) (d : Dimensions) : Dimensions :=
  match style.get_value "height" with
  | some (Value.length h) => { d with content := { d.content with height := h } }
  | _ => d

/-- The border edge sizes attached to the RenderBlockBox for the paint
phase (layout_block): the right side is looked up under the key
border-bottom-right, the other three under their per-side width keys. -/
def render_border_edges (style : SNode) : EdgeSizes :=
  { top := (style.lookup_with_fallback "border-top-width" "border-width" zeroLen).to_px,
    bottom := (style.lookup_with_fallback "border-bottom-width" "border-width" zeroLen).to_px,
    left := (style.lookup_with_fallback "border-left-width" "border-width" zeroLen).to_px,
    right := (style.lookup_with_fallback "border-bottom-right" "border-width" zeroLen).to_px }

/-- The render tree nodes produced by layout (RenderBox in render.rs): a
block carries dimensions, color, background_color, border_color and its
children's render boxes. -/
inductive RenderBox : Type where
  | block : Dimensions → Option Color → Option Color → Option Color → List RenderBox → RenderBox
  | inline : RenderBox
  | anonymous : RenderBox

mutual

/-- LayoutBox::layout: only block boxes compute geometry; inline and
anonymous boxes return immediately, untouched. -/
def layout : LayoutBox → Dimensions → LayoutBox × RenderBox
  | LayoutBox.mk dims (BoxType.blockNode s) children, containing =>
    let d1 := calculate_block_width s containing dims
    let d2 := calculate_block_position s containing d1
    let r := layoutKids children d2
    let d4 := calculate_block_height s r.2.2
    (LayoutBox.mk d4 (BoxType.blockNode s) r.1,
     RenderBox.block { d4 with border := render_border_edges s }
       (s.get_color "color") (s.get_color "background") (s.get_color "border-color")
       r.2.1)
  | LayoutBox.mk dims (BoxType.inlineNode s) children, _ =>
    (LayoutBox.mk dims (BoxType.inlineNode s) children, RenderBox.inline)
  | LayoutBox.mk dims (BoxType.anonymousBlock s) children, _ =>
    (LayoutBox.mk dims (BoxType.anonymousBlock s) children, RenderBox.anonymous)

/-- layout_block_children: lay out each child against the parent's content
dimensions, growing the parent's content height by the child's margin-box
height after each one. -/
def layoutKids : List LayoutBox → Dimensions → List LayoutBox × List RenderBox × Dimensions
  | [], d => ([], [], d)
  | c :: cs, d =>
    let p := layout c d
    let d' := { d with content := { d.content with
      height := d.content.height + p.1.dimensions.margin_box.height } }
    let rest := layoutKids cs d'
    (p.1 :: rest.1, p.2 :: rest.2.1, rest.2.2)

end

/-- A display command: a solid color fill of a rectangle (SolidColor). -/
structure SolidColor where
  rect : Rect
  color : Color
  deriving DecidableEq

/-- get_color in robinson_paint: the named property of the box's style
node when it is a color. -/
def box_get_color (box : LayoutBox) (name : String) : Option Color :=
  match box.box_type with
  | BoxType.blockNode s => s.get_color name
  | BoxType.inlineNode s => s.get_color name
  | BoxType.anonymousBlock s => s.get_color name

/-- render_background: one fill covering the border box, when a background
color is specified. -/
def render_background (list : List SolidColor) (box : LayoutBox) : List SolidColor :=
  match box_get_color box "background" with
  | some color => list ++ [{ rect := box.dimensions.border_box, color := color }]
  | Option.none => list

/-- render_borders: four fills (left, right, top, bottom), each spanning
the border box in one dimension and the border thickness in the other,
when a border color is specified. -/
def render_borders (list : List SolidColor) (box : LayoutBox) : List SolidColor :=
  match box_get_color box "border-color" with
  | Option.none => list
  | some color =>
    let d := box.dimensions
    let border_box := d.border_box
    let leftR := Rect.mk border_box.x border_box.y d.border.left border_box.height
    let rightR := Rect.mk (border_box.x + border_box.width - d.border.right)
      border_box.y d.border.right border_box.height
    let topR := Rect.mk border_box.x border_box.y border_box.width d.border.top
    let bottomR := Rect.mk border_box.x (border_box.y + border_box.height - d.border.bottom)
      border_box.width d.border.bottom
    list ++ [SolidColor.mk leftR color, SolidColor.mk rightR color,
             SolidColor.mk topR color, SolidColor.mk bottomR color]

mutual

/-- render_layout_box: background, then borders, then the children in
document order. -/
def render_layout_box (list : List SolidColor) (box : LayoutBox) : List SolidColor :=
  match box with
  | LayoutBox.mk d bt cs =>
    render_kids (render_borders (render_background list (LayoutBox.mk d bt cs))
      (LayoutBox.mk d bt cs)) cs

/-- Emit the children in order. -/
def render_kids (list : List SolidColor) : List LayoutBox → List SolidColor
  | [] => list
  | c :: cs => render_kids (render_layout_box list c) cs

end

/-- build_display_list. -/
def build_display_list (layout_root : LayoutBox) : List SolidColor :=
  render_layout_box [] layout_root

/-! ### Derived definitions and concrete fixtures -/

/-- The horizontal sum of a dimensions record. -/
def horizSum (d : Dimensions) : ℚ :=
  d.margin.left + d.border.left + d.padding.left + d.content.width +
    d.padding.right + d.border.right + d.margin.right

mutual

/-- Every box in the tree has the all-zero default dimensions. -/
def allZeroDims : LayoutBox → Bool
  | LayoutBox.mk d _ cs => decide (d = defaultDims) && allZeroDimsList cs

/-- List form of allZeroDims. -/
def allZeroDimsList : List LayoutBox → Bool
  | [] => true
  | c :: cs => allZeroDims c && allZeroDimsList cs

end

mutual

/-- The horizontal-sum invariant: every Block box's seven horizontal
quantities sum to the width of the containing block it was laid out
against; every box's children are checked against its own content width. -/
def blockWidthOk : LayoutBox → ℚ → Bool
  | LayoutBox.mk d (BoxType.blockNode _) cs, w =>
    decide (horizSum d = w) && blockWidthOkList cs d.content.width
  | LayoutBox.mk d _ cs, _ => blockWidthOkList cs d.content.width

/-- List form of blockWidthOk. -/
def blockWidthOkList : List LayoutBox → ℚ → Bool
  | [], _ => true
  | c :: cs, w => blockWidthOk c w && blockWidthOkList cs w

end

/-- A style node whose seven horizontal properties are the given explicit
pixel lengths. -/
def mkHStyle (w a b bl br pl pr : ℚ) : SNode :=
  SNode.mk (Node.element (Element.mk "div" Option.none []))
    [("width", Value.length w), ("margin-left", Value.length a),
     ("margin-right", Value.length b), ("border-left-width", Value.length bl),
     ("border-right-width", Value.length br), ("padding-left", Value.length pl),
     ("padding-right", Value.length pr)] []

/-- A property map containing only display block. -/
def blockMap : PropertyMap := [("display", Value.keyword "block")]

/-- An unstyled block element style node. -/
def plainBlock : SNode :=
  SNode.mk (Node.element (Element.mk "div" Option.none [])) blockMap []

/-- A text style node. -/
def tNode (s : String) : SNode := SNode.mk (Node.text s) [] []

/-- A block element with three consecutive inline text children. -/
def blkParent3 : SNode :=
  SNode.mk (Node.element (Element.mk "div" Option.none [])) blockMap
    [tNode "a", tNode "b", tNode "c"]

/-- A viewport-like containing block of content width 800. -/
def cb800 : Dimensions :=
  { content := { x := 0, y := 0, width := 800, height := 0 },
    padding := defaultEdges, border := defaultEdges, margin := defaultEdges }

/-- Fixture colors. -/
def red : Color := Color.mk 1

/-- Fixture colors. -/
def green : Color := Color.mk 2

/-- Fixture colors. -/
def blue : Color := Color.mk 3

/-- The element with id foo and class bar of the cascade scenario. -/
def elemFoo : Element := Element.mk "div" (some "foo") ["bar"]

/-- The rule: selector with id foo (specificity (1,0,0)) sets color red. -/
def ruleFoo : NormalRule :=
  NormalRule.mk [Selector.simple (SimpleSelector.mk Option.none (some "foo") [])]
    [("color", Value.color red)]

/-- The rule: selector with class bar (specificity (0,1,0)) sets color
green. -/
def ruleBar : NormalRule :=
  NormalRule.mk [Selector.simple (SimpleSelector.mk Option.none Option.none ["bar"])]
    [("color", Value.color green)]

/-- A stylesheet holding only the id rule. -/
def sheetFoo : StyleSheet := StyleSheet.mk [CssRule.normal ruleFoo]

/-- A stylesheet holding only the class rule. -/
def sheetBar : StyleSheet := StyleSheet.mk [CssRule.normal ruleBar]

/-- A block style node that sets only border-right-width (5px). -/
def styleBR : SNode :=
  SNode.mk (Node.element (Element.mk "div" Option.none []))
    [("display", Value.keyword "block"), ("border-right-width", Value.length 5)] []

/-- A block style with an explicit pixel height. -/
def styleH : SNode :=
  SNode.mk (Node.element (Element.mk "div" Option.none []))
    [("display", Value.keyword "block"), ("height", Value.length 120)] []

/-- A block element style node whose display property is the keyword
table. -/
def tableNode : SNode :=
  SNode.mk (Node.element (Element.mk "span" Option.none []))
    [("display", Value.keyword "table")] []

/-- A block parent whose only child is the table-display element. -/
def blkParentTable : SNode :=
  SNode.mk (Node.element (Element.mk "div" Option.none [])) blockMap [tableNode]

/-- The style of the paint scenario: red background, blue border color. -/
def paintStyle : SNode :=
  SNode.mk (Node.element (Element.mk "div" Option.none []))
    [("background", Value.color red), ("border-color", Value.color blue)] []

/-- The dimensions of the paint scenario: a 100 by 50 content box at (x, y)
with 10px padding, 5px borders and a 3px margin on every side. -/
def dims100 (x y : ℚ) : Dimensions :=
  { content := { x := x, y := y, width := 100, height := 50 },
    padding := { left := 10, right := 10, top := 10, bottom := 10 },
    border := { left := 5, right := 5, top := 5, bottom := 5 },
    margin := { left := 3, right := 3, top := 3, bottom := 3 } }

/-- The paint-scenario layout box. -/
def paintBox (x y : ℚ) : LayoutBox :=
  LayoutBox.mk (dims100 x y) (BoxType.blockNode paintStyle) []

/-- A block style node whose margin-top is the keyword auto. -/
def styleAutoTop : SNode :=
  SNode.mk (Node.element (Element.mk "div" Option.none []))
    [("display", Value.keyword "block"), ("margin-top", Value.keyword "auto")] []

/-! ### Helper lemmas -/

@[simp] theorem pmGet_nil (name : String) : pmGet [] name = Option.none := rfl

@[simp] theorem pmGet_cons (k : String) (v : Value) (m : PropertyMap) (name : String) :
    pmGet ((k, v) :: m) name = if k = name then some v else pmGet m name := by
  by_cases h : k = name <;> simp [pmGet, List.find?, beq_eq_decide, h]

@[simp] theorem to_px_autoV : autoV.to_px = 0 := rfl

@[simp] theorem to_px_zeroLen : zeroLen.to_px = 0 := rfl

@[simp] theorem to_px_length (q : ℚ) : (Value.length q).to_px = q := rfl

theorem to_px_if_auto (v : Value) : (if v = autoV then zeroLen else v).to_px = v.to_px := by
  split
  · simp_all
  · rfl

theorem to_px_force (A B : Prop) [Decidable A] [Decidable B] (v : Value) :
    (if A ∧ B ∧ v = autoV then zeroLen else v).to_px = v.to_px := by
  split
  · rename_i h
    rw [h.2.2]
    rfl
  · rfl

theorem resolve_width_sum (w ml mr : Value) (u : ℚ) :
    (resolve_width w ml mr u).1.to_px + (resolve_width w ml mr u).2.1.to_px +
      (resolve_width w ml mr u).2.2.to_px = w.to_px + ml.to_px + mr.to_px + u := by
  simp only [resolve_width]
  split_ifs <;> simp_all [autoV, zeroLen, Value.to_px] <;> ring

theorem cbw_sum (style : SNode) (containing d : Dimensions) :
    horizSum (calculate_block_width style containing d) = containing.content.width := by
  simp only [horizSum, calculate_block_width]
  generalize (style.get_value "width").getD autoV = w
  generalize style.lookup_with_fallback "margin-left" "margin" zeroLen = ml0
  generalize style.lookup_with_fallback "margin-right" "margin" zeroLen = mr0
  generalize style.lookup_with_fallback "border-left-width" "border-width" zeroLen = bl
  generalize style.lookup_with_fallback "border-right-width" "border-width" zeroLen = br
  generalize style.lookup_with_fallback "padding-left" "padding" zeroLen = pl
  generalize style.lookup_with_fallback "padding-right" "padding" zeroLen = pr
  generalize containing.content.width = cw
  have h := resolve_width_sum w
    (if w ≠ autoV ∧ ml0.to_px + mr0.to_px + bl.to_px + br.to_px + pl.to_px + pr.to_px +
        w.to_px > cw ∧ ml0 = autoV then zeroLen else ml0)
    (if w ≠ autoV ∧ ml0.to_px + mr0.to_px + bl.to_px + br.to_px + pl.to_px + pr.to_px +
        w.to_px > cw ∧ mr0 = autoV then zeroLen else mr0)
    (cw - (ml0.to_px + mr0.to_px + bl.to_px + br.to_px + pl.to_px + pr.to_px + w.to_px))
  rw [to_px_force, to_px_force] at h
  linarith [h]

theorem cbp_horizSum (style : SNode) (containing d : Dimensions) :
    horizSum (calculate_block_position style containing d) = horizSum d := by
  simp [calculate_block_position, horizSum]

theorem cbp_width (style : SNode) (containing d : Dimensions) :
    (calculate_block_position style containing d).content.width = d.content.width := by
  simp [calculate_block_position]

theorem cbh_horizSum (style : SNode) (d : Dimensions) :
    horizSum (calculate_block_height style d) = horizSum d := by
  simp only [calculate_block_height]
  split <;> simp [horizSum]

theorem cbh_width (style : SNode) (d : Dimensions) :
    (calculate_block_height style d).content.width = d.content.width := by
  simp only [calculate_block_height]
  split <;> simp

theorem layoutKids_dims (cs : List LayoutBox) (d : Dimensions) :
    (layoutKids cs d).2.2 =
      { d with content := { d.content with height := (layoutKids cs d).2.2.content.height } } := by
  induction cs generalizing d with
  | nil => simp [layoutKids]
  | cons c cs ih =>
    simp only [layoutKids]
    rw [ih]

theorem layoutKids_horizSum (cs : List LayoutBox) (d : Dimensions) :
    horizSum (layoutKids cs d).2.2 = horizSum d := by
  rw [layoutKids_dims]
  simp [horizSum]

theorem layoutKids_width (cs : List LayoutBox) (d : Dimensions) :
    (layoutKids cs d).2.2.content.width = d.content.width := by
  rw [layoutKids_dims]

theorem horizSum_defaultDims : horizSum defaultDims = 0 := by
  simp [horizSum, defaultDims, defaultEdges]

mutual

theorem allZero_blockWidthOk (box : LayoutBox) (h : allZeroDims box = true) :
    blockWidthOk box 0 = true := by
  match box with
  | LayoutBox.mk d bt cs =>
    simp only [allZeroDims, Bool.and_eq_true, decide_eq_true_eq] at h
    have hcs := allZero_blockWidthOkList cs h.2
    cases bt <;>
      simp_all [blockWidthOk, horizSum_defaultDims, defaultDims, defaultEdges, horizSum]

theorem allZero_blockWidthOkList (cs : List LayoutBox) (h : allZeroDimsList cs = true) :
    blockWidthOkList cs 0 = true := by
  match cs with
  | [] => rfl
  | c :: cs' =>
    simp only [allZeroDimsList, Bool.and_eq_true] at h
    simp only [blockWidthOkList, Bool.and_eq_true]
    exact ⟨allZero_blockWidthOk c h.1, allZero_blockWidthOkList cs' h.2⟩

end

theorem layout_blockWidthOk :
    ∀ (box : LayoutBox) (cb : Dimensions), allZeroDims box = true →
      blockWidthOk (layout box cb).1 cb.content.width = true := by
  apply layout.induct
    (motive_1 := fun box cb => allZeroDims box = true →
      blockWidthOk (layout box cb).1 cb.content.width = true)
    (motive_2 := fun cs d => allZeroDimsList cs = true →
      blockWidthOkList (layoutKids cs d).1 d.content.width = true)
  · intro dims s children containing d1 d2 ih hz
    simp only [allZeroDims, Bool.and_eq_true, decide_eq_true_eq] at hz
    simp only [layout, blockWidthOk, Bool.and_eq_true, decide_eq_true_eq]
    constructor
    · rw [cbh_horizSum, layoutKids_horizSum, cbp_horizSum, cbw_sum]
    · rw [cbh_width, layoutKids_width, cbp_width]
      have h2 := ih hz.2
      rw [cbp_width] at h2
      have hw : (calculate_block_width s containing dims).content.width =
          (calculate_block_position s containing
            (calculate_block_width s containing dims)).content.width :=
        (cbp_width s containing (calculate_block_width s containing dims)).symm
      exact hw ▸ h2
  · intro dims s children cb hz
    simp only [allZeroDims, Bool.and_eq_true, decide_eq_true_eq] at hz
    simp only [layout, blockWidthOk]
    rw [hz.1]
    exact allZero_blockWidthOkList children hz.2
  · intro dims s children cb hz
    simp only [allZeroDims, Bool.and_eq_true, decide_eq_true_eq] at hz
    simp only [layout, blockWidthOk]
    rw [hz.1]
    exact allZero_blockWidthOkList children hz.2
  · intro d hz
    rfl
  · intro c cs d p d' ih1 ih2 hz
    simp only [allZeroDimsList, Bool.and_eq_true] at hz
    simp only [layoutKids, blockWidthOkList, Bool.and_eq_true]
    refine ⟨ih1 hz.1, ?_⟩
    have h2 := ih2 hz.2
    simpa using h2

theorem layoutKids_height (cs : List LayoutBox) (d : Dimensions) :
    (layoutKids cs d).2.2.content.height =
      d.content.height +
        ((layoutKids cs d).1.map (fun c => c.dimensions.margin_box.height)).sum := by
  induction cs generalizing d with
  | nil => simp [layoutKids]
  | cons c cs ih =>
    simp only [layoutKids, List.map_cons, List.sum_cons]
    rw [ih]
    simp
    ring

theorem render_self_zero (list : List SolidColor) (bt : BoxType) (cs : List LayoutBox)
    (cmd : SolidColor)
    (hcmd : cmd ∈ render_borders (render_background list (LayoutBox.mk defaultDims bt cs))
      (LayoutBox.mk defaultDims bt cs)) :
    cmd ∈ list ∨ (cmd.rect.width = 0 ∧ cmd.rect.height = 0) := by
  cases hbg : box_get_color (LayoutBox.mk defaultDims bt cs) "background" <;>
    cases hbc : box_get_color (LayoutBox.mk defaultDims bt cs) "border-color" <;>
    simp only [render_borders, render_background, hbg, hbc, List.mem_append,
      List.mem_cons, List.not_mem_nil, or_false, List.mem_singleton, or_assoc] at hcmd
  · exact Or.inl hcmd
  · rcases hcmd with hcmd | hcmd | hcmd | hcmd | hcmd <;>
      first
        | exact Or.inl hcmd
        | (right; subst hcmd;
           norm_num [LayoutBox.dimensions, defaultDims, defaultEdges,
             Dimensions.border_box, Dimensions.padding_box, Rect.expanded_by])
  · rcases hcmd with hcmd | hcmd <;>
      first
        | exact Or.inl hcmd
        | (right; subst hcmd;
           norm_num [LayoutBox.dimensions, defaultDims, defaultEdges,
             Dimensions.border_box, Dimensions.padding_box, Rect.expanded_by])
  · rcases hcmd with hcmd | hcmd | hcmd | hcmd | hcmd | hcmd <;>
      first
        | exact Or.inl hcmd
        | (right; subst hcmd;
           norm_num [LayoutBox.dimensions, defaultDims, defaultEdges,
             Dimensions.border_box, Dimensions.padding_box, Rect.expanded_by])

theorem render_zero_area :
    ∀ (list : List SolidColor) (box : LayoutBox), allZeroDims box = true →
      ∀ cmd ∈ render_layout_box list box, cmd ∈ list ∨
        (cmd.rect.width = 0 ∧ cmd.rect.height = 0) := by
  apply render_layout_box.induct
    (motive_1 := fun list box => allZeroDims box = true →
      ∀ cmd ∈ render_layout_box list box, cmd ∈ list ∨
        (cmd.rect.width = 0 ∧ cmd.rect.height = 0))
    (motive_2 := fun list cs => allZeroDimsList cs = true →
      ∀ cmd ∈ render_kids list cs, cmd ∈ list ∨
        (cmd.rect.width = 0 ∧ cmd.rect.height = 0))
  · intro list d bt cs ih hz cmd hcmd
    simp only [allZeroDims, Bool.and_eq_true, decide_eq_true_eq] at hz
    obtain ⟨hd, hcs⟩ := hz
    subst hd
    simp only [render_layout_box] at hcmd
    rcases ih hcs cmd hcmd with h2 | h2
    · exact render_self_zero list bt cs cmd h2
    · exact Or.inr h2
  · intro list hz cmd hcmd
    exact Or.inl hcmd
  · intro list c cs ih1 ih2 hz cmd hcmd
    simp only [allZeroDimsList, Bool.and_eq_true] at hz
    simp only [render_kids] at hcmd
    rcases ih2 hz.2 cmd hcmd with h2 | h2
    · exact ih1 hz.1 cmd h2
    · exact Or.inr h2

theorem layoutKids_skip_inline (s : SNode) (cs rest : List LayoutBox) (d : Dimensions) :
    (layoutKids (LayoutBox.mk defaultDims (BoxType.inlineNode s) cs :: rest) d).2.2 =
      (layoutKids rest d).2.2 := by
  simp only [layoutKids, layout]
  have h : d.content.height +
      (LayoutBox.mk defaultDims (BoxType.inlineNode s) cs).dimensions.margin_box.height =
      d.content.height := by
    simp [LayoutBox.dimensions, Dimensions.margin_box, Dimensions.border_box,
      Dimensions.padding_box, Rect.expanded_by, defaultDims, defaultEdges]
  rw [h]

theorem layoutKids_skip_anon (s : SNode) (cs rest : List LayoutBox) (d : Dimensions) :
    (layoutKids (LayoutBox.mk defaultDims (BoxType.anonymousBlock s) cs :: rest) d).2.2 =
      (layoutKids rest d).2.2 := by
  simp only [layoutKids, layout]
  have h : d.content.height +
      (LayoutBox.mk defaultDims (BoxType.anonymousBlock s) cs).dimensions.margin_box.height =
      d.content.height := by
    simp [LayoutBox.dimensions, Dimensions.margin_box, Dimensions.border_box,
      Dimensions.padding_box, Rect.expanded_by, defaultDims, defaultEdges]
  rw [h]

theorem find?_first {α : Type} (p : α → Bool) (l : List α) (b : α) :
    l.find? p = some b ↔
      ∃ l1 l2, l = l1 ++ b :: l2 ∧ p b = true ∧ ∀ a ∈ l1, p a = false := by
  induction l with
  | nil => simp
  | cons x xs ih =>
    cases hp : p x
    · rw [List.find?_cons_of_neg _ (by simp [hp]), ih]
      constructor
      · rintro ⟨l1, l2, h1, h2, h3⟩
        refine ⟨x :: l1, l2, by rw [h1]; rfl, h2, ?_⟩
        intro a ha
        rcases List.mem_cons.mp ha with rfl | ha'
        · exact hp
        · exact h3 a ha'
      · rintro ⟨l1, l2, h1, h2, h3⟩
        cases l1 with
        | nil =>
          simp only [List.nil_append, List.cons.injEq] at h1
          obtain ⟨rfl, rfl⟩ := h1
          rw [hp] at h2
          cases h2
        | cons y l1' =>
          simp only [List.cons_append, List.cons.injEq] at h1
          obtain ⟨rfl, h1'⟩ := h1
          exact ⟨l1', l2, h1', h2, fun a ha => h3 a (List.mem_cons_of_mem _ ha)⟩
    · rw [List.find?_cons_of_pos _ hp]
      constructor
      · rintro h
        obtain rfl := Option.some_inj.mp h
        exact ⟨[], xs, rfl, hp, by simp⟩
      · rintro ⟨l1, l2, h1, h2, h3⟩
        cases l1 with
        | nil =>
          simp only [List.nil_append, List.cons.injEq] at h1
          rw [h1.1]
        | cons y l1' =>
          simp only [List.cons_append, List.cons.injEq] at h1
          obtain ⟨rfl, h1'⟩ := h1
          have hx := h3 x (by simp)
          rw [hp] at hx
          cases hx

/-! ### Claim theorems -/

/-- C1: at the scenario input — an element with id foo and class bar, one
rule with selector id foo (specificity (1,0,0)) setting color red, one
rule with selector class bar (specificity (0,1,0)) setting color green —
the cascade yields the class rule's color green in both stylesheet
orders: the descending sort of specified_values applies the
lowest-specificity rule last, so the lowest specificity wins, not the
highest as the claim states. -/
theorem spec_C1_cascade_lowest_specificity_wins :
    pmGet (specified_values elemFoo [sheetFoo, sheetBar]) "color" = some (Value.color green) ∧
    pmGet (specified_values elemFoo [sheetBar, sheetFoo]) "color" = some (Value.color green) := by
  constructor <;> decide

/-- C2: after layout of a freshly built tree, every Block box's
margin.left + border.left + padding.left + content.width + padding.right +
border.right + margin.right equals the content width of the containing
block it was laid out against; and with an explicit width and explicit
margins (the over-constrained case), margin-right absorbs the remainder
exactly: the specified margin-right plus the underflow. -/
theorem spec_C2_block_width_invariant :
    (∀ (box : LayoutBox) (cb : Dimensions), allZeroDims box = true →
      blockWidthOk (layout box cb).1 cb.content.width = true) ∧
    (∀ (w a b bl br pl pr : ℚ) (containing d : Dimensions),
      (calculate_block_width (mkHStyle w a b bl br pl pr) containing d).margin.right =
        b + (containing.content.width - (a + b + bl + br + pl + pr + w))) := by
  constructor
  · exact layout_blockWidthOk
  · intro w a b bl br pl pr containing d
    simp [calculate_block_width, mkHStyle, SNode.lookup_with_fallback, SNode.get_value,
      SNode.specified, resolve_width, autoV, zeroLen, Value.to_px]

/-- Witness for C2: a concrete unstyled block box laid out in an 800px
containing block satisfies the invariant. -/
theorem spec_C2_block_width_invariant_witness :
    allZeroDims (LayoutBox.mk defaultDims (BoxType.blockNode plainBlock) []) = true ∧
    blockWidthOk (layout (LayoutBox.mk defaultDims (BoxType.blockNode plainBlock) []) cb800).1
      cb800.content.width = true :=
  ⟨by decide,
   spec_C2_block_width_invariant.1 (LayoutBox.mk defaultDims (BoxType.blockNode plainBlock) [])
     cb800 (by decide)⟩

/-- C3: width resolution by cases. With width auto, every auto margin is
set to 0; if the underflow is nonnegative the content width becomes the
underflow, otherwise the content width becomes 0 and the negative
underflow is added to margin-right's current value. With width explicit
and both margins auto, when the total does not exceed the containing
width each margin becomes underflow/2, and when it does, the auto margins
are first forced to 0 so that margin-left ends at 0 and margin-right at
the (negative) underflow. An unstyled block in an 800px containing block
resolves to content width 800. -/
theorem spec_C3_width_auto_resolution :
    (∀ (style : SNode) (containing d : Dimensions) (ml mr : Value) (u : ℚ),
      style.get_value "width" = Option.none →
      style.lookup_with_fallback "margin-left" "margin" zeroLen = ml →
      style.lookup_with_fallback "margin-right" "margin" zeroLen = mr →
      u = containing.content.width -
        (ml.to_px + mr.to_px +
          (style.lookup_with_fallback "border-left-width" "border-width" zeroLen).to_px +
          (style.lookup_with_fallback "border-right-width" "border-width" zeroLen).to_px +
          (style.lookup_with_fallback "padding-left" "padding" zeroLen).to_px +
          (style.lookup_with_fallback "padding-right" "padding" zeroLen).to_px) →
      (0 ≤ u →
        (calculate_block_width style containing d).content.width = u ∧
        (calculate_block_width style containing d).margin.left =
          (if ml = autoV then zeroLen else ml).to_px ∧
        (calculate_block_width style containing d).margin.right =
          (if mr = autoV then zeroLen else mr).to_px) ∧
      (u < 0 →
        (calculate_block_width style containing d).content.width = 0 ∧
        (calculate_block_width style containing d).margin.left =
          (if ml = autoV then zeroLen else ml).to_px ∧
        (calculate_block_width style containing d).margin.right =
          (if mr = autoV then zeroLen else mr).to_px + u)) ∧
    (∀ (style : SNode) (containing d : Dimensions) (w u : ℚ),
      style.get_value "width" = some (Value.length w) →
      style.lookup_with_fallback "margin-left" "margin" zeroLen = autoV →
      style.lookup_with_fallback "margin-right" "margin" zeroLen = autoV →
      u = containing.content.width -
        ((style.lookup_with_fallback "border-left-width" "border-width" zeroLen).to_px +
          (style.lookup_with_fallback "border-right-width" "border-width" zeroLen).to_px +
          (style.lookup_with_fallback "padding-left" "padding" zeroLen).to_px +
          (style.lookup_with_fallback "padding-right" "padding" zeroLen).to_px + w) →
      ((style.lookup_with_fallback "border-left-width" "border-width" zeroLen).to_px +
          (style.lookup_with_fallback "border-right-width" "border-width" zeroLen).to_px +
          (style.lookup_with_fallback "padding-left" "padding" zeroLen).to_px +
          (style.lookup_with_fallback "padding-right" "padding" zeroLen).to_px + w ≤
          containing.content.width →
        (calculate_block_width style containing d).margin.left = u / 2 ∧
        (calculate_block_width style containing d).margin.right = u / 2 ∧
        (calculate_block_width style containing d).content.width = w) ∧
      ((style.lookup_with_fallback "border-left-width" "border-width" zeroLen).to_px +
          (style.lookup_with_fallback "border-right-width" "border-width" zeroLen).to_px +
          (style.lookup_with_fallback "padding-left" "padding" zeroLen).to_px +
          (style.lookup_with_fallback "padding-right" "padding" zeroLen).to_px + w >
          containing.content.width →
        (calculate_block_width style containing d).margin.left = 0 ∧
        (calculate_block_width style containing d).margin.right = u)) ∧
    ((layout (buildBox plainBlock) cb800).1.dimensions.content.width = 800) := by
  refine ⟨?_, ?_, ?_⟩
  · intro style containing d ml mr u hw hml hmr hu
    constructor
    · intro hpos
      simp only [calculate_block_width, hw, hml, hmr, Option.getD_none, resolve_width,
        to_px_autoV, ne_eq, not_true_eq_false, false_and, and_false, if_false, if_true,
        add_zero, ite_true, ite_false, eq_self_iff_true, true_and]
      simp only [← hu]
      rw [if_pos (ge_iff_le.mpr hpos)]
      simp [to_px_if_auto]
    · intro hneg
      simp only [calculate_block_width, hw, hml, hmr, Option.getD_none, resolve_width,
        to_px_autoV, ne_eq, not_true_eq_false, false_and, and_false, if_false, if_true,
        add_zero, ite_true, ite_false, eq_self_iff_true, true_and]
      simp only [← hu]
      rw [if_neg (by simpa using not_le.mpr hneg)]
      simp [to_px_if_auto]
  · intro style containing d w u hw hml hmr hu
    constructor
    · intro ht
      simp only [calculate_block_width, hw, hml, hmr, Option.getD_some, resolve_width,
        to_px_autoV, to_px_length, ne_eq, zero_add, add_zero]
      split_ifs <;>
        first
          | (exfalso; simp_all [autoV, zeroLen]; done)
          | (exfalso; simp_all [autoV, zeroLen]; linarith)
          | (subst hu; simp [autoV, zeroLen]; done)
          | (subst hu; simp [autoV, zeroLen]; linarith)
    · intro ht
      simp only [calculate_block_width, hw, hml, hmr, Option.getD_some, resolve_width,
        to_px_autoV, to_px_length, ne_eq, zero_add, add_zero]
      split_ifs <;>
        first
          | (exfalso; simp_all [autoV, zeroLen]; done)
          | (exfalso; simp_all [autoV, zeroLen]; linarith)
          | (subst hu; simp [autoV, zeroLen]; done)
          | (subst hu; simp [autoV, zeroLen]; linarith)
  · simp [layout, buildBox, buildKids, rootBoxType, SNode.display, layoutKids,
      calculate_block_width, resolve_width, calculate_block_position, calculate_block_height,
      SNode.lookup_with_fallback, SNode.get_value,
      plainBlock, blockMap, autoV, zeroLen, Value.to_px, cb800, defaultDims, defaultEdges,
      LayoutBox.dimensions, SNode.node, SNode.specified]

/-- Witness for C3: the auto-width case at the unstyled block in an 800px
containing block gives content width 800 and zero margins. -/
theorem spec_C3_width_auto_resolution_witness :
    plainBlock.get_value "width" = Option.none ∧
    (calculate_block_width plainBlock cb800 defaultDims).content.width = 800 :=
  ⟨by decide,
   ((spec_C3_width_auto_resolution.1 plainBlock cb800 defaultDims zeroLen zeroLen 800
      (by decide) (by decide) (by decide)
      (by simp [cb800, zeroLen, plainBlock, blockMap, SNode.lookup_with_fallback,
            SNode.get_value, SNode.specified, Value.to_px])).1 (by norm_num)).1⟩

/-- C4: a block box's content y is the containing block's accumulated
content height plus the containing block's content y plus the box's
resolved margin-top, border-top and padding-top; an auto margin-top
resolves to 0; laying out the children grows the parent's content height
by the sum of the laid-out children's margin-box heights; and an explicit
pixel height overrides the accumulated height afterwards, while an absent
height leaves it standing. -/
theorem spec_C4_vertical_stacking :
    (∀ (style : SNode) (containing d : Dimensions),
      (calculate_block_position style containing d).content.y =
        containing.content.height + containing.content.y +
          (style.lookup_with_fallback "margin-top" "margin" zeroLen).to_px +
          (style.lookup_with_fallback "border-top-width" "border-width" zeroLen).to_px +
          (style.lookup_with_fallback "padding-top" "padding" zeroLen).to_px) ∧
    (∀ (style : SNode) (containing d : Dimensions),
      style.get_value "margin-top" = some autoV →
      (calculate_block_position style containing d).margin.top = 0) ∧
    (∀ (cs : List LayoutBox) (d : Dimensions),
      (layoutKids cs d).2.2.content.height =
        d.content.height +
          ((layoutKids cs d).1.map (fun c => c.dimensions.margin_box.height)).sum) ∧
    (∀ (style : SNode) (d : Dimensions) (h : ℚ),
      style.get_value "height" = some (Value.length h) →
      (calculate_block_height style d).content.height = h) ∧
    (∀ (style : SNode) (d : Dimensions),
      style.get_value "height" = Option.none →
      calculate_block_height style d = d) := by
  refine ⟨?_, ?_, layoutKids_height, ?_, ?_⟩
  · intro style containing d
    simp [calculate_block_position]
  · intro style containing d h
    simp [calculate_block_position, SNode.lookup_with_fallback, h, autoV, Value.to_px]
  · intro style d h hh
    simp [calculate_block_height, hh]
  · intro style d hh
    simp [calculate_block_height, hh]

/-- Witness for C4: the auto margin-top fixture resolves to margin.top 0,
and the explicit 120px height fixture overrides the accumulated height. -/
theorem spec_C4_vertical_stacking_witness :
    styleAutoTop.get_value "margin-top" = some autoV ∧
    (calculate_block_position styleAutoTop cb800 defaultDims).margin.top = 0 ∧
    styleH.get_value "height" = some (Value.length 120) ∧
    (calculate_block_height styleH defaultDims).content.height = 120 :=
  ⟨by decide,
   spec_C4_vertical_stacking.2.1 styleAutoTop cb800 defaultDims (by decide),
   by decide,
   spec_C4_vertical_stacking.2.2.2.1 styleH defaultDims 120 (by decide)⟩

/-- C5 counterexample: an element with display table computes
Display.table, not Display.inline, and a block parent whose only child
has display table produces no box for it at all (the child is omitted,
not wrapped as inline). -/
theorem spec_C5_counterexample :
    SNode.display tableNode = Display.table ∧
    SNode.display tableNode ≠ Display.inline ∧
    (buildBox blkParentTable).kids = [] := by
  refine ⟨by decide, by decide, by rfl⟩

/-- C5 amended: text nodes and elements with an absent display property, a
non-keyword display value, or an unrecognized keyword compute inline;
recognized keywords (such as table) map to their own display values; in
the box tree a block child is appended directly, an inline child goes
through the inline container, and a child with any other display value
(none, table, ...) is omitted together with its subtree; a root with such
a display makes tree building fail. -/
theorem spec_C5_display_amended :
    (∀ (s : String) (m : PropertyMap) (cs : List SNode),
      SNode.display (SNode.mk (Node.text s) m cs) = Display.inline) ∧
    (∀ (e : Element) (m : PropertyMap) (cs : List SNode),
      pmGet m "display" = Option.none →
      SNode.display (SNode.mk (Node.element e) m cs) = Display.inline) ∧
    (∀ (e : Element) (m : PropertyMap) (cs : List SNode) (kw : String),
      pmGet m "display" = some (Value.keyword kw) →
      kw ≠ "block" → kw ≠ "none" → kw ≠ "inline-block" → kw ≠ "table" →
      kw ≠ "table-row-group" → kw ≠ "table-row" → kw ≠ "table-cell" →
      kw ≠ "list-item" →
      SNode.display (SNode.mk (Node.element e) m cs) = Display.inline) ∧
    (∀ (e : Element) (m : PropertyMap) (cs : List SNode) (c : Color),
      pmGet m "display" = some (Value.color c) →
      SNode.display (SNode.mk (Node.element e) m cs) = Display.inline) ∧
    (∀ (e : Element) (m : PropertyMap) (cs : List SNode),
      pmGet m "display" = some (Value.keyword "table") →
      SNode.display (SNode.mk (Node.element e) m cs) = Display.table) ∧
    (∀ (selfT : BoxType) (c : SNode) (cs : List SNode) (acc : List LayoutBox),
      SNode.display c = Display.block →
      buildKids selfT (c :: cs) acc = buildKids selfT cs (acc ++ [buildBox c])) ∧
    (∀ (selfT : BoxType) (c : SNode) (cs : List SNode) (acc : List LayoutBox),
      SNode.display c = Display.inline →
      buildKids selfT (c :: cs) acc =
        buildKids selfT cs (push_inline selfT acc (buildBox c))) ∧
    (∀ (selfT : BoxType) (c : SNode) (cs : List SNode) (acc : List LayoutBox),
      SNode.display c ≠ Display.block → SNode.display c ≠ Display.inline →
      buildKids selfT (c :: cs) acc = buildKids selfT cs acc) ∧
    (∀ (sn : SNode), SNode.display sn ≠ Display.block →
      SNode.display sn ≠ Display.inline → build_layout_tree sn = Option.none) := by
  refine ⟨fun s m cs => rfl, ?_, ?_, ?_, ?_, ?_, ?_, ?_, ?_⟩
  · intro e m cs h
    simp [SNode.display, SNode.get_value, SNode.specified, SNode.node, h]
  · intro e m cs kw h h1 h2 h3 h4 h5 h6 h7 h8
    simp only [SNode.display, SNode.get_value, SNode.specified, SNode.node, h]
  · intro e m cs c h
    simp [SNode.display, SNode.get_value, SNode.specified, SNode.node, h]
  · intro e m cs h
    simp [SNode.display, SNode.get_value, SNode.specified, SNode.node, h]
  · intro selfT c cs acc h
    simp only [buildKids, h]
  · intro selfT c cs acc h
    simp only [buildKids, h]
  · intro selfT c cs acc h1 h2
    simp only [buildKids]
  · intro sn h1 h2
    simp only [build_layout_tree]

/-- Witness for C5 amended: at the table fixture the child is omitted from
the box tree. -/
theorem spec_C5_display_amended_witness :
    SNode.display tableNode ≠ Display.block ∧ SNode.display tableNode ≠ Display.inline ∧
    buildKids (BoxType.blockNode blkParentTable) [tableNode] [] =
      buildKids (BoxType.blockNode blkParentTable) [] [] :=
  ⟨by decide, by decide,
   spec_C5_display_amended.2.2.2.2.2.2.2.1 (BoxType.blockNode blkParentTable) tableNode [] []
     (by decide) (by decide)⟩

/-- C6: at a style specifying only border-right-width 5px, width
calculation resolves the right border to 5, but the border widths attached
for the paint phase resolve the right side through the key
border-bottom-right (not border-right-width), which misses and falls back
to the absent border-width shorthand, giving 0: the attached right border
width differs from the one used during width calculation. -/
theorem spec_C6_border_right_key :
    (calculate_block_width styleBR cb800 defaultDims).border.right = 5 ∧
    (render_border_edges styleBR).right = 0 ∧
    (∀ (style : SNode), (render_border_edges style).right =
      (style.lookup_with_fallback "border-bottom-right" "border-width" zeroLen).to_px) := by
  refine ⟨?_, by decide, fun style => rfl⟩
  simp [calculate_block_width, resolve_width, styleBR, SNode.lookup_with_fallback,
    SNode.get_value, SNode.specified, autoV, zeroLen, Value.to_px]

/-- C7: an Inline or AnonymousBlock parent receives a new inline box
directly; a Block parent whose last child is not an AnonymousBlock starts
a new AnonymousBlock (styled by the block's own style node) holding the
inline box; a Block parent whose last child is an AnonymousBlock appends
the inline box to that child; and a block element with three consecutive
inline text children builds exactly one AnonymousBlock wrapping all
three. -/
theorem spec_C7_inline_container :
    (∀ (s : SNode) (acc : List LayoutBox) (b : LayoutBox),
      push_inline (BoxType.inlineNode s) acc b = acc ++ [b]) ∧
    (∀ (s : SNode) (acc : List LayoutBox) (b : LayoutBox),
      push_inline (BoxType.anonymousBlock s) acc b = acc ++ [b]) ∧
    (∀ (node : SNode) (acc : List LayoutBox) (b : LayoutBox),
      (acc.getLast?.map LayoutBox.isAnonymous).getD false = false →
      push_inline (BoxType.blockNode node) acc b =
        acc ++ [LayoutBox.mk defaultDims (BoxType.anonymousBlock node) [b]]) ∧
    (∀ (node s : SNode) (pre : List LayoutBox) (dA : Dimensions)
      (cs : List LayoutBox) (b : LayoutBox),
      push_inline (BoxType.blockNode node)
        (pre ++ [LayoutBox.mk dA (BoxType.anonymousBlock s) cs]) b =
        pre ++ [LayoutBox.mk dA (BoxType.anonymousBlock s) (cs ++ [b])]) ∧
    (buildBox blkParent3 =
      LayoutBox.mk defaultDims (BoxType.blockNode blkParent3)
        [LayoutBox.mk defaultDims (BoxType.anonymousBlock blkParent3)
          [LayoutBox.mk defaultDims (BoxType.inlineNode (tNode "a")) [],
           LayoutBox.mk defaultDims (BoxType.inlineNode (tNode "b")) [],
           LayoutBox.mk defaultDims (BoxType.inlineNode (tNode "c")) []]]) := by
  refine ⟨fun s acc b => rfl, fun s acc b => rfl, ?_, ?_, by rfl⟩
  · intro node acc b h
    simp [push_inline, h]
  · intro node s pre dA cs b
    simp [push_inline, pushIntoLast, List.getLast?_concat, List.dropLast_concat,
      LayoutBox.isAnonymous]

/-- Witness for C7: a Block parent with no children yet starts a new
AnonymousBlock for the first inline text box. -/
theorem spec_C7_inline_container_witness :
    ((([] : List LayoutBox).getLast?.map LayoutBox.isAnonymous).getD false = false) ∧
    push_inline (BoxType.blockNode blkParent3) [] (buildBox (tNode "a")) =
      [LayoutBox.mk defaultDims (BoxType.anonymousBlock blkParent3) [buildBox (tNode "a")]] :=
  ⟨by decide,
   spec_C7_inline_container.2.2.1 blkParent3 [] (buildBox (tNode "a")) (by decide)⟩

/-- C8: the display list is built pre-order; a Block box with resolved
background and border colors first emits one background fill covering its
border box, then the four border fills (left, right, top, bottom), each
spanning the border box in one dimension and the border thickness in the
other, then its children in document order; the 100 by 50 scenario with
10px padding, 5px borders and a 3px margin emits the background at
(x-15, y-15, 130, 80) and four 5px-thick border fills at its edges (the
margin is excluded). -/
theorem spec_C8_display_list :
    (∀ (d : Dimensions) (s : SNode) (cs : List LayoutBox) (list : List SolidColor)
      (c1 c2 : Color),
      SNode.get_color s "background" = some c1 →
      SNode.get_color s "border-color" = some c2 →
      render_layout_box list (LayoutBox.mk d (BoxType.blockNode s) cs) =
        render_kids
          (list ++
            [SolidColor.mk d.border_box c1,
             SolidColor.mk (Rect.mk d.border_box.x d.border_box.y d.border.left
               d.border_box.height) c2,
             SolidColor.mk (Rect.mk (d.border_box.x + d.border_box.width - d.border.right)
               d.border_box.y d.border.right d.border_box.height) c2,
             SolidColor.mk (Rect.mk d.border_box.x d.border_box.y d.border_box.width
               d.border.top) c2,
             SolidColor.mk (Rect.mk d.border_box.x
               (d.border_box.y + d.border_box.height - d.border.bottom)
               d.border_box.width d.border.bottom) c2]) cs) ∧
    (∀ (d : Dimensions) (s : SNode) (cs : List LayoutBox) (list : List SolidColor)
      (c1 : Color),
      SNode.get_color s "background" = some c1 →
      SNode.get_color s "border-color" = Option.none →
      render_layout_box list (LayoutBox.mk d (BoxType.blockNode s) cs) =
        render_kids (list ++ [SolidColor.mk d.border_box c1]) cs) ∧
    (∀ (d : Dimensions) (s : SNode) (cs : List LayoutBox) (list : List SolidColor),
      SNode.get_color s "background" = Option.none →
      SNode.get_color s "border-color" = Option.none →
      render_layout_box list (LayoutBox.mk d (BoxType.blockNode s) cs) =
        render_kids list cs) ∧
    (∀ (x y : ℚ),
      build_display_list (paintBox x y) =
        [SolidColor.mk (Rect.mk (x - 15) (y - 15) 130 80) red,
         SolidColor.mk (Rect.mk (x - 15) (y - 15) 5 80) blue,
         SolidColor.mk (Rect.mk (x + 110) (y - 15) 5 80) blue,
         SolidColor.mk (Rect.mk (x - 15) (y - 15) 130 5) blue,
         SolidColor.mk (Rect.mk (x - 15) (y + 60) 130 5) blue]) := by
  refine ⟨?_, ?_, ?_, ?_⟩
  · intro d s cs list c1 c2 h1 h2
    simp [render_layout_box, render_background, render_borders, box_get_color,
      LayoutBox.dimensions, LayoutBox.box_type, h1, h2]
  · intro d s cs list c1 h1 h2
    simp [render_layout_box, render_background, render_borders, box_get_color,
      LayoutBox.dimensions, LayoutBox.box_type, h1, h2]
  · intro d s cs list h1 h2
    simp [render_layout_box, render_background, render_borders, box_get_color,
      LayoutBox.dimensions, LayoutBox.box_type, h1, h2]
  · intro x y
    simp [build_display_list, render_layout_box, render_kids, render_background,
      render_borders, box_get_color, paintBox, paintStyle, dims100,
      Dimensions.border_box, Dimensions.padding_box, Rect.expanded_by,
      SNode.get_color, SNode.get_value, SNode.specified, LayoutBox.dimensions,
      LayoutBox.box_type]
    norm_num
    and_intros <;> first | trivial | ring

/-- Witness for C8: the general block-box emission shape at the concrete
paint fixture. -/
theorem spec_C8_display_list_witness :
    SNode.get_color paintStyle "background" = some red ∧
    SNode.get_color paintStyle "border-color" = some blue ∧
    render_layout_box [] (LayoutBox.mk (dims100 0 0) (BoxType.blockNode paintStyle) []) =
      render_kids
        ([] ++
          [SolidColor.mk (dims100 0 0).border_box red,
           SolidColor.mk (Rect.mk (dims100 0 0).border_box.x (dims100 0 0).border_box.y
             (dims100 0 0).border.left (dims100 0 0).border_box.height) blue,
           SolidColor.mk (Rect.mk ((dims100 0 0).border_box.x + (dims100 0 0).border_box.width -
               (dims100 0 0).border.right)
             (dims100 0 0).border_box.y (dims100 0 0).border.right
             (dims100 0 0).border_box.height) blue,
           SolidColor.mk (Rect.mk (dims100 0 0).border_box.x (dims100 0 0).border_box.y
             (dims100 0 0).border_box.width (dims100 0 0).border.top) blue,
           SolidColor.mk (Rect.mk (dims100 0 0).border_box.x
             ((dims100 0 0).border_box.y + (dims100 0 0).border_box.height -
               (dims100 0 0).border.bottom)
             (dims100 0 0).border_box.width (dims100 0 0).border.bottom) blue]) [] :=
  ⟨by decide, by decide,
   spec_C8_display_list.1 (dims100 0 0) paintStyle [] [] red blue (by decide) (by decide)⟩

/-- C10: layout leaves InlineNode and AnonymousBlock boxes untouched — it
computes no geometry and does not recurse into their children, so their
dimensions stay at the all-zero default; the default margin box is the
zero rectangle, so such a child contributes nothing to its parent's
accumulated content height; and every display command emitted for an
all-zero subtree covers a zero-area rectangle. -/
theorem spec_C10_inline_layout_noop :
    (∀ (dims : Dimensions) (s : SNode) (cs : List LayoutBox) (cb : Dimensions),
      layout (LayoutBox.mk dims (BoxType.inlineNode s) cs) cb =
        (LayoutBox.mk dims (BoxType.inlineNode s) cs, RenderBox.inline)) ∧
    (∀ (dims : Dimensions) (s : SNode) (cs : List LayoutBox) (cb : Dimensions),
      layout (LayoutBox.mk dims (BoxType.anonymousBlock s) cs) cb =
        (LayoutBox.mk dims (BoxType.anonymousBlock s) cs, RenderBox.anonymous)) ∧
    (defaultDims.margin_box = Rect.mk 0 0 0 0) ∧
    (∀ (s : SNode) (cs rest : List LayoutBox) (d : Dimensions),
      (layoutKids (LayoutBox.mk defaultDims (BoxType.inlineNode s) cs :: rest) d).2.2 =
        (layoutKids rest d).2.2) ∧
    (∀ (s : SNode) (cs rest : List LayoutBox) (d : Dimensions),
      (layoutKids (LayoutBox.mk defaultDims (BoxType.anonymousBlock s) cs :: rest) d).2.2 =
        (layoutKids rest d).2.2) ∧
    (∀ (box : LayoutBox), allZeroDims box = true →
      ∀ cmd ∈ build_display_list box, cmd.rect.width = 0 ∧ cmd.rect.height = 0) := by
  refine ⟨?_, ?_, ?_, layoutKids_skip_inline, layoutKids_skip_anon, ?_⟩
  · intro dims s cs cb
    simp [layout]
  · intro dims s cs cb
    simp [layout]
  · simp [Dimensions.margin_box, Dimensions.border_box, Dimensions.padding_box,
      Rect.expanded_by, defaultDims, defaultEdges]
  · intro box hz cmd hcmd
    rcases render_zero_area [] box hz cmd hcmd with h | h
    · exact absurd h (List.not_mem_nil cmd)
    · exact h

/-- Witness for C10: a zero-dimensioned block box with background and
border colors emits only zero-area commands. -/
theorem spec_C10_inline_layout_noop_witness :
    allZeroDims (LayoutBox.mk defaultDims (BoxType.blockNode paintStyle) []) = true ∧
    (∀ cmd ∈ build_display_list (LayoutBox.mk defaultDims (BoxType.blockNode paintStyle) []),
      cmd.rect.width = 0 ∧ cmd.rect.height = 0) :=
  ⟨by decide,
   spec_C10_inline_layout_noop.2.2.2.2.2
     (LayoutBox.mk defaultDims (BoxType.blockNode paintStyle) []) (by decide)⟩

/-- C9: a simple selector matches an element iff it has no tag-name
constraint or the tag names are equal, no id constraint or the element's
id equals it, and every class in the selector's class set is present in
the element's class set; a rule's specificity is the specificity of its
first selector (in stored order) that matches, and the rule is excluded
(match_rule gives none) exactly when no selector matches. -/
theorem spec_C9_selector_matching :
    (∀ (elem : Element) (sel : SimpleSelector),
      matches_simple_selector elem sel = true ↔
        ((∀ t, sel.tag_name = some t → elem.name = t) ∧
         (∀ i, sel.id = some i → elem.id = some i) ∧
         (∀ c ∈ sel.cls, c ∈ elem.classes))) ∧
    (∀ (elem : Element) (rule : NormalRule),
      match_rule elem rule = Option.none ↔
        ∀ s ∈ rule.selectors, selector_matches elem s = false) ∧
    (∀ (elem : Element) (rule : NormalRule) (sp : Specificity),
      match_rule elem rule = some sp ↔
        ∃ sel l1 l2, rule.selectors = l1 ++ sel :: l2 ∧
          selector_matches elem sel = true ∧
          (∀ s ∈ l1, selector_matches elem s = false) ∧
          sp = Selector.specificity sel) := by
  refine ⟨?_, ?_, ?_⟩
  · intro elem sel
    rcases sel with ⟨tn, ido, cls⟩
    cases tn <;> cases ido <;> simp [matches_simple_selector]
  · intro elem rule
    simp [match_rule, List.find?_eq_none]
  · intro elem rule sp
    simp only [match_rule, Option.map_eq_some']
    constructor
    · rintro ⟨a, ha, rfl⟩
      rcases (find?_first _ _ _).mp ha with ⟨l1, l2, h1, h2, h3⟩
      exact ⟨a, l1, l2, h1, h2, h3, rfl⟩
    · rintro ⟨sel, l1, l2, h1, h2, h3, rfl⟩
      exact ⟨sel, (find?_first _ _ _).mpr ⟨l1, l2, h1, h2, h3⟩, rfl⟩

/-- Witness for C9: the id selector matches the element with id foo, and
the id rule matches it with specificity (1, 0, 0) as its first selector. -/
theorem spec_C9_selector_matching_witness :
    ((∀ t, (SimpleSelector.mk Option.none (some "foo") []).tag_name = some t →
        elemFoo.name = t) ∧
     (∀ i, (SimpleSelector.mk Option.none (some "foo") []).id = some i →
        elemFoo.id = some i) ∧
     (∀ c ∈ (SimpleSelector.mk Option.none (some "foo") []).cls, c ∈ elemFoo.classes)) ∧
    match_rule elemFoo ruleFoo = some (1, 0, 0) :=
  ⟨(spec_C9_selector_matching.1 elemFoo (SimpleSelector.mk Option.none (some "foo") [])).mp
     (by decide),
   (spec_C9_selector_matching.2.2 elemFoo ruleFoo (1, 0, 0)).mpr
     ⟨Selector.simple (SimpleSelector.mk Option.none (some "foo") []), [],
      [], rfl, by decide, by simp, rfl⟩⟩

end Robinson
